import Mathlib

/-!
Shallow embedding of `autokeras/keras_layers.py`.

The module defines two Keras preprocessing layers:

* `MultiCategoryEncoding`: per-column dispatch over an `encoding` list of
  strings ("none" / "int" / "one-hot").  Columns with no encoding layer are
  converted from strings to float32 with NaN imputed to 0; "int" columns are
  passed through a `StringLookup` layer and cast to float32.
* `TextVectorizationWithTokenizer`: BERT-style encoding of a batch of
  sentences into `input_word_ids` / `input_mask` / `input_type_ids`.

Tensors of shape (batch, k) are embedded as `List (List _)` in row-major
order; a width-1 column slice of such a tensor is embedded as a
batch-length list of its scalar entries.  Framework primitives
(`tf.strings.to_number`, the `StringLookup` vocabulary construction and the
lookup function itself, the external tokenizer) are parameters of the
embedding, since they are not code of this repository.

Float32 values are embedded as an inductive that separates NaN from
ordinary numeric values (`Rat`): the only float operations the code
performs are parsing, the NaN test and replacement by 0.
-/

namespace KerasLayers

/-- Embedded float32 value: either NaN or an ordinary numeric value. -/
inductive F32 where
  | nan : F32
  | val : Rat → F32
deriving DecidableEq, Repr

/-- `tf.where(tf.math.is_nan(number), tf.zeros_like(number), number)`,
elementwise: replace NaN by 0, keep every other value. -/
def imputeNan : F32 → F32
  | F32.nan => F32.val 0
  | F32.val q => F32.val q

/-- Module-level constant `INT = "int"`. -/
def INT : String := "int"

/-- Module-level constant `NONE = "none"`. -/
def NONE : String := "none"

/-- Module-level constant `ONE_HOT = "one-hot"`. -/
def ONE_HOT : String := "one-hot"

/-- State of a `preprocessing.StringLookup` layer: the vocabulary it has
been adapted to.  A freshly constructed layer has an empty vocabulary. -/
inductive EncLayer where
  | stringLookup : List String → EncLayer
deriving DecidableEq, Repr

/-- The loop body of `MultiCategoryEncoding.__init__`: for each entry of
`encoding`, append `None` for "none", a fresh `StringLookup()` for "int",
`None` for "one-hot", and nothing at all for any other string. -/
def initEncodingLayers : List String → List (Option EncLayer)
  | [] => []
  | e :: rest =>
    (if e = NONE then [none]
     else if e = INT then [some (EncLayer.stringLookup [])]
     else if e = ONE_HOT then [none]
     else []) ++ initEncodingLayers rest

/-- State of a `MultiCategoryEncoding` layer: the `encoding` list and the
`encoding_layers` list built from it. -/
structure MultiCategoryEncoding where
  encoding : List String
  encoding_layers : List (Option EncLayer)
deriving DecidableEq, Repr

/-- `MultiCategoryEncoding.__init__(encoding)`. -/
def MultiCategoryEncoding.init (encoding : List String) : MultiCategoryEncoding :=
  { encoding := encoding, encoding_layers := initEncodingLayers encoding }

/-- `tf.split(input_nodes, [1] * k, axis=-1)` on a (batch, k) tensor:
the list of its `k` width-1 column slices, each a batch-length list. -/
def splitCols (k : Nat) (rows : List (List String)) : List (List String) :=
  (List.range k).map fun j => rows.map fun row => row.getD j ""

/-- The per-column branch of `MultiCategoryEncoding.call`: a column paired
with `None` goes through `tf.strings.to_number` (embedded by the parameter
`parse`) followed by NaN imputation; a column paired with a `StringLookup`
goes through the lookup (embedded by the parameter `slLookup` applied to
the layer's vocabulary) and `tf.cast(_, tf.float32)`. -/
def encodeColumn (parse : String → F32) (slLookup : List String → String → Int)
    (layer : Option EncLayer) (col : List String) : List F32 :=
  match layer with
  | none => col.map fun s => imputeNan (parse s)
  | some (EncLayer.stringLookup vocab) => col.map fun s => F32.val (slLookup vocab s)

/-- `tf.keras.layers.Concatenate()` along the last axis of width-1
(batch, 1) tensors: row `i` of the result collects entry `i` of every
column. -/
def concatCols (batch : Nat) (cols : List (List F32)) : List (List F32) :=
  (List.range batch).map fun i => cols.map fun col => col.getD i (F32.val 0)

/-- `MultiCategoryEncoding.call(self, inputs)`, with the layer state
threaded explicitly: the body reads `self.encoding` and
`self.encoding_layers`, never assigns to `self`, and returns the encoded
tensor.  `zip` pairs the column slices with the encoding layers, stopping
at the shorter list, exactly as Python's `zip` does; when a single output
column is produced it is returned directly, otherwise the columns are
concatenated. -/
def MultiCategoryEncoding.callS (parse : String → F32)
    (slLookup : List String → String → Int)
    (self : MultiCategoryEncoding) (inputs : List (List String)) :
    MultiCategoryEncoding × List (List F32) :=
  let input_nodes := inputs
  let split_inputs := splitCols self.encoding.length input_nodes
  let output_nodes := (split_inputs.zip self.encoding_layers).map fun p =>
    encodeColumn parse slLookup p.2 p.1
  (self,
    if output_nodes.length = 1 then (output_nodes.headD []).map fun x => [x]
    else concatCols inputs.length output_nodes)

/-- The value returned by `MultiCategoryEncoding.call`. -/
def MultiCategoryEncoding.call (parse : String → F32)
    (slLookup : List String → String → Int)
    (self : MultiCategoryEncoding) (inputs : List (List String)) :
    List (List F32) :=
  (self.callS parse slLookup inputs).2

/-- `data.map(lambda x: tf.slice(x, [0, index], [-1, 1]))` applied to one
batch `x`: all rows, the single column at `index`. -/
def sliceCol (index : Nat) (x : List (List String)) : List (List String) :=
  x.map fun row => [row.getD index ""]

/-- `MultiCategoryEncoding.adapt(self, data)`: for each position of
`encoding_layers` holding a `StringLookup`, adapt it on the width-1 slice
of every batch of the dataset at that position (the vocabulary
construction of `StringLookup.adapt` is the framework parameter
`slAdapt`); positions holding `None` are skipped.  The dataset is a list
of (batch, k) tensors. -/
def MultiCategoryEncoding.adaptS (slAdapt : List (List (List String)) → List String)
    (self : MultiCategoryEncoding) (data : List (List (List String))) :
    MultiCategoryEncoding :=
  { self with
    encoding_layers := self.encoding_layers.enum.map fun p =>
      match p.2 with
      | none => none
      | some _ => some (EncLayer.stringLookup (slAdapt (data.map (sliceCol p.1)))) }

/-- A value stored in a Keras layer configuration dictionary. -/
inductive ConfigVal where
  | str : String → ConfigVal
  | strList : List String → ConfigVal
  | boolV : Bool → ConfigVal
deriving DecidableEq, Repr

/-- Python `dict(items)` lookup: the dict built from an association list
keeps, for each key, the value of its last occurrence. -/
def dictGet (items : List (String × ConfigVal)) (k : String) : Option ConfigVal :=
  (items.reverse.find? fun p => p.1 = k).map Prod.snd

/-- `MultiCategoryEncoding.get_config`:
`dict(list(base_config.items()) + list({"encoding": self.encoding}.items()))`.
`base` embeds the items of `super().get_config()`. -/
def MultiCategoryEncoding.get_config (base : List (String × ConfigVal))
    (self : MultiCategoryEncoding) : List (String × ConfigVal) :=
  base ++ [("encoding", ConfigVal.strList self.encoding)]

/-- Keras deserialization `cls.from_config(config)` for this layer:
`MultiCategoryEncoding(encoding=config["encoding"])`. -/
def MultiCategoryEncoding.fromConfig (config : List (String × ConfigVal)) :
    Option MultiCategoryEncoding :=
  match dictGet config "encoding" with
  | some (ConfigVal.strList enc) => some (MultiCategoryEncoding.init enc)
  | _ => none

/-- The `Some`/`None` pattern of the `encoding_layers` list. -/
def layerPattern (self : MultiCategoryEncoding) : List Bool :=
  self.encoding_layers.map Option.isSome

/-- The encoding layer `__init__` produces for a single valid encoding
entry: a fresh `StringLookup` for "int", `None` for "none" and "one-hot". -/
def layerFor (e : String) : Option EncLayer :=
  if e = INT then some (EncLayer.stringLookup []) else none

/-- The list of encoded columns built by the loop of
`MultiCategoryEncoding.call` before the final concatenation. -/
def callCols (parse : String → F32) (slLookup : List String → String → Int)
    (self : MultiCategoryEncoding) (rows : List (List String)) : List (List F32) :=
  ((splitCols self.encoding.length rows).zip self.encoding_layers).map fun p =>
    encodeColumn parse slLookup p.2 p.1

/-! ### The external BERT tokenizer and `TextVectorizationWithTokenizer` -/

/-- The external tokenizer object (`bert.tokenization.FullTokenizer`):
`tokenize` segments a sentence into sub-word tokens and
`convert_tokens_to_ids` maps each token to its vocabulary id
(embedded pointwise by `tokenToId`). -/
structure Tokenizer where
  tokenize : String → List String
  tokenToId : String → Int

/-- `tokenizer.convert_tokens_to_ids(tokens)`. -/
def convertTokensToIds (tk : Tokenizer) (tokens : List String) : List Int :=
  tokens.map tk.tokenToId

/-- State of a `TextVectorizationWithTokenizer` layer: the tokenizer it
was constructed with. -/
structure TextVectorizationWithTokenizer where
  tokenizer : Tokenizer

/-- `TextVectorizationWithTokenizer.encode_sentence(self, s)`:
tokenize the sentence, append `'[SEP]'`, convert all tokens to ids. -/
def TextVectorizationWithTokenizer.encode_sentence
    (self : TextVectorizationWithTokenizer) (s : String) : List Int :=
  convertTokensToIds self.tokenizer (self.tokenizer.tokenize s ++ ["[SEP]"])

/-- The maximal row length of a ragged tensor. -/
def maxRowLen (rows : List (List Int)) : Nat :=
  rows.foldr (fun r m => max r.length m) 0

/-- `ragged.to_tensor()`: pad every row with zeros to the maximal row
length. -/
def toTensor (rows : List (List Int)) : List (List Int) :=
  rows.map fun r => r ++ List.replicate (maxRowLen rows - r.length) 0

/-- `tf.ones_like` on a ragged tensor. -/
def onesLike (rows : List (List Int)) : List (List Int) :=
  rows.map fun r => r.map fun _ => 1

/-- `tf.zeros_like` on a ragged tensor. -/
def zerosLike (rows : List (List Int)) : List (List Int) :=
  rows.map fun r => r.map fun _ => 0

/-- `tf.concat([a, b], axis=-1)` on two ragged tensors with the same
number of rows: row-wise concatenation. -/
def rowConcat (a b : List (List Int)) : List (List Int) :=
  List.zipWith (· ++ ·) a b

/-- `TextVectorizationWithTokenizer.bert_encode(self, input)`: encode
every sentence, prepend the `'[CLS]'` id row-wise, and return the dict
with keys `'input_word_ids'`, `'input_mask'` and `'input_type_ids'`
(embedded as an association list in insertion order). -/
def TextVectorizationWithTokenizer.bert_encode
    (self : TextVectorizationWithTokenizer) (input : List String) :
    List (String × List (List Int)) :=
  let sentence1 := input.map fun s => self.encode_sentence s
  let cls := List.replicate sentence1.length (convertTokensToIds self.tokenizer ["[CLS]"])
  let input_word_ids := rowConcat cls sentence1
  let input_mask := toTensor (onesLike input_word_ids)
  let type_cls := zerosLike cls
  let type_s1 := zerosLike sentence1
  let input_type_ids := toTensor (rowConcat type_cls type_s1)
  [("input_word_ids", toTensor input_word_ids),
   ("input_mask", input_mask),
   ("input_type_ids", input_type_ids)]

/-- `TextVectorizationWithTokenizer.call(self, inputs)` with the layer
state threaded explicitly: the body only calls `bert_encode` and never
assigns to `self`. -/
def TextVectorizationWithTokenizer.callS (self : TextVectorizationWithTokenizer)
    (inputs : List String) :
    TextVectorizationWithTokenizer × List (String × List (List Int)) :=
  (self, self.bert_encode inputs)

/-- The value returned by `TextVectorizationWithTokenizer.call`. -/
def TextVectorizationWithTokenizer.call (self : TextVectorizationWithTokenizer)
    (inputs : List String) : List (String × List (List Int)) :=
  (self.callS inputs).2

/-- Lookup of one field of the returned dict. -/
def fieldGet (out : List (String × List (List Int))) (k : String) : List (List Int) :=
  ((out.find? fun p => p.1 = k).map Prod.snd).getD []

/-! ### Top-level module evaluation (for the `CUSTOM_OBJECTS` NameError) -/

/-- A top-level Python statement, reduced to the names it binds and the
names it references when the module is evaluated: an import binds its
target; an assignment evaluates the names referenced by its right-hand
side and then binds its target; a class definition evaluates its
decorators and base-class expressions and then binds the class name. -/
inductive Stmt where
  | importName : String → Stmt
  | assign : String → List String → Stmt
  | classDef : String → List String → Stmt

/-- The top-level statements of `autokeras/keras_layers.py`, in order.
The `CUSTOM_OBJECTS` dict display references the names
`MultiColumnCategoricalEncoding` and `index_lookup` (its keys are string
literals and reference nothing). -/
def moduleStmts : List Stmt :=
  [Stmt.importName "np",
   Stmt.importName "tf",
   Stmt.importName "preprocessing",
   Stmt.importName "nest",
   Stmt.assign "INT" [],
   Stmt.assign "NONE" [],
   Stmt.assign "ONE_HOT" [],
   Stmt.classDef "MultiCategoryEncoding" ["tf", "preprocessing"],
   Stmt.assign "CUSTOM_OBJECTS" ["MultiColumnCategoricalEncoding", "index_lookup"],
   Stmt.classDef "TextVectorizationWithTokenizer" ["preprocessing"]]

/-- Evaluate the top-level statements in order over the environment of
bound names.  Referencing an unbound name raises `NameError`; evaluation
stops there (the import of the module fails).  On error the result
carries the offending name and the names bound so far; on success it
carries all bound names. -/
def evalModule : List Stmt → List String → Except (String × List String) (List String)
  | [], env => Except.ok env
  | stmt :: rest, env =>
    match stmt with
    | Stmt.importName n => evalModule rest (env ++ [n])
    | Stmt.classDef n refs =>
      match refs.find? fun r => ¬ env.contains r with
      | some r => Except.error (r, env)
      | none => evalModule rest (env ++ [n])
    | Stmt.assign n refs =>
      match refs.find? fun r => ¬ env.contains r with
      | some r => Except.error (r, env)
      | none => evalModule rest (env ++ [n])

/-! ### Helper lemmas on the embedding -/

lemma layerFor_NONE : layerFor NONE = none := by
  simp [layerFor, NONE, INT]

lemma layerFor_INT : layerFor INT = some (EncLayer.stringLookup []) := by
  simp [layerFor]

lemma layerFor_ONE_HOT : layerFor ONE_HOT = none := by
  simp [layerFor, ONE_HOT, INT]

lemma initEncodingLayers_cons (e : String) (rest : List String) :
    initEncodingLayers (e :: rest)
      = (if e = NONE then [none]
         else if e = INT then [some (EncLayer.stringLookup [])]
         else if e = ONE_HOT then [none]
         else []) ++ initEncodingLayers rest := rfl

lemma initEncodingLayers_eq_map (enc : List String)
    (hval : ∀ e ∈ enc, e = NONE ∨ e = INT ∨ e = ONE_HOT) :
    initEncodingLayers enc = enc.map layerFor := by
  induction enc with
  | nil => rfl
  | cons e rest ih =>
    have he := hval e (List.mem_cons_self _ _)
    have hrest := fun x hx => hval x (List.mem_cons_of_mem _ hx)
    rw [initEncodingLayers_cons, List.map_cons, ih hrest]
    rcases he with h | h | h <;> subst h <;>
      simp [layerFor, NONE, INT, ONE_HOT]

lemma initEncodingLayers_length_le (enc : List String) :
    (initEncodingLayers enc).length ≤ enc.length := by
  induction enc with
  | nil => simp [initEncodingLayers]
  | cons e rest ih =>
    rw [initEncodingLayers_cons]
    split <;> try split <;> try split
    all_goals simp only [List.length_append, List.length_cons, List.length_nil,
      List.length_singleton]
    all_goals omega

lemma initEncodingLayers_length_lt (enc : List String) (e : String) (he : e ∈ enc)
    (hbad : ¬(e = NONE ∨ e = INT ∨ e = ONE_HOT)) :
    (initEncodingLayers enc).length < enc.length := by
  induction enc with
  | nil => cases he
  | cons a rest ih =>
    rw [initEncodingLayers_cons]
    rcases List.mem_cons.mp he with rfl | hmem
    · have h1 : ¬ e = NONE := fun h => hbad (Or.inl h)
      have h2 : ¬ e = INT := fun h => hbad (Or.inr (Or.inl h))
      have h3 : ¬ e = ONE_HOT := fun h => hbad (Or.inr (Or.inr h))
      simp only [h1, h2, h3, if_false, List.nil_append, List.length_cons]
      have := initEncodingLayers_length_le rest
      omega
    · have hlt := ih hmem
      have hle : (if a = NONE then [(none : Option EncLayer)]
          else if a = INT then [some (EncLayer.stringLookup [])]
          else if a = ONE_HOT then [none]
          else []).length ≤ 1 := by
        split <;> try split <;> try split
        all_goals simp
      simp only [List.length_append, List.length_cons]
      omega

lemma encodeColumn_length (parse : String → F32) (slk : List String → String → Int)
    (layer : Option EncLayer) (col : List String) :
    (encodeColumn parse slk layer col).length = col.length := by
  cases layer with
  | none => simp [encodeColumn]
  | some l => cases l; simp [encodeColumn]

lemma splitCols_length (k : Nat) (rows : List (List String)) :
    (splitCols k rows).length = k := by
  simp [splitCols]

lemma splitCols_getElem? (k : Nat) (rows : List (List String)) (j : Nat) (hj : j < k) :
    (splitCols k rows)[j]? = some (rows.map fun row => row.getD j "") := by
  simp [splitCols, List.getElem?_map, List.getElem?_range hj]

lemma mem_splitCols_length (k : Nat) (rows : List (List String)) (col : List String)
    (h : col ∈ splitCols k rows) : col.length = rows.length := by
  simp only [splitCols, List.mem_map, List.mem_range] at h
  obtain ⟨j, _, rfl⟩ := h
  simp

lemma callCols_mem_length (parse : String → F32) (slk : List String → String → Int)
    (self : MultiCategoryEncoding) (rows : List (List String)) (c : List F32)
    (h : c ∈ callCols parse slk self rows) : c.length = rows.length := by
  simp only [callCols, List.mem_map] at h
  obtain ⟨⟨col, layer⟩, hmem, rfl⟩ := h
  rw [encodeColumn_length]
  exact mem_splitCols_length _ _ _ (List.of_mem_zip hmem).1

lemma callCols_length (parse : String → F32) (slk : List String → String → Int)
    (self : MultiCategoryEncoding) (rows : List (List String)) :
    (callCols parse slk self rows).length
      = min self.encoding.length self.encoding_layers.length := by
  simp [callCols, List.length_zip, splitCols_length]

lemma callCols_getElem? (parse : String → F32) (slk : List String → String → Int)
    (self : MultiCategoryEncoding) (rows : List (List String)) (j : Nat)
    (L : Option EncLayer)
    (hj : j < self.encoding.length) (hL : self.encoding_layers[j]? = some L) :
    (callCols parse slk self rows)[j]?
      = some (encodeColumn parse slk L (rows.map fun row => row.getD j "")) := by
  have hzip : ((splitCols self.encoding.length rows).zip self.encoding_layers)[j]?
      = some (rows.map fun row => row.getD j "", L) :=
    List.getElem?_zip_eq_some.mpr ⟨splitCols_getElem? _ _ _ hj, hL⟩
  simp [callCols, List.getElem?_map, hzip]

lemma call_eq_branches (parse : String → F32) (slk : List String → String → Int)
    (self : MultiCategoryEncoding) (rows : List (List String)) :
    MultiCategoryEncoding.call parse slk self rows
      = if (callCols parse slk self rows).length = 1
        then ((callCols parse slk self rows).headD []).map fun x => [x]
        else concatCols rows.length (callCols parse slk self rows) := rfl

lemma call_getElem?_row (parse : String → F32) (slk : List String → String → Int)
    (self : MultiCategoryEncoding) (rows : List (List String)) (r : Nat)
    (hr : r < rows.length) :
    (MultiCategoryEncoding.call parse slk self rows)[r]?
      = some ((callCols parse slk self rows).map fun col => col.getD r (F32.val 0)) := by
  rw [call_eq_branches]
  by_cases h1 : (callCols parse slk self rows).length = 1
  · obtain ⟨c, hc⟩ := List.length_eq_one.mp h1
    have hcr : r < c.length := by
      rw [callCols_mem_length parse slk self rows c (by rw [hc]; exact List.mem_singleton_self c)]
      exact hr
    rw [hc]
    simp only [if_pos (by rw [hc] at h1; exact h1), List.headD_cons, List.getElem?_map,
      List.map_cons, List.map_nil]
    rw [List.getElem?_eq_getElem hcr]
    simp [List.getD_eq_getElem?_getD, List.getElem?_eq_getElem hcr]
  · rw [if_neg h1]
    simp only [concatCols, List.getElem?_map, List.getElem?_range hr]
    rfl

lemma call_entry (parse : String → F32) (slk : List String → String → Int)
    (self : MultiCategoryEncoding) (rows : List (List String)) (r j : Nat)
    (L : Option EncLayer) (hr : r < rows.length) (hj : j < self.encoding.length)
    (hL : self.encoding_layers[j]? = some L) :
    ((MultiCategoryEncoding.call parse slk self rows).getD r []).getD j (F32.val 0)
      = (encodeColumn parse slk L (rows.map fun row => row.getD j "")).getD r (F32.val 0) := by
  rw [List.getD_eq_getElem?_getD (MultiCategoryEncoding.call parse slk self rows) r [],
    call_getElem?_row parse slk self rows r hr]
  simp only [Option.getD_some]
  rw [List.getD_eq_getElem?_getD, List.getElem?_map,
    callCols_getElem? parse slk self rows j L hj hL]
  rfl

lemma adaptS_getElem? (slA : List (List (List String)) → List String)
    (self : MultiCategoryEncoding) (data : List (List (List String))) (i : Nat) :
    (self.adaptS slA data).encoding_layers[i]?
      = (self.encoding_layers[i]?).map fun l =>
          match l with
          | none => none
          | some _ => some (EncLayer.stringLookup (slA (data.map (sliceCol i)))) := by
  simp only [MultiCategoryEncoding.adaptS, List.getElem?_map, List.getElem?_enum]
  cases self.encoding_layers[i]? with
  | none => rfl
  | some l => cases l <;> rfl

lemma adaptS_encoding (slA : List (List (List String)) → List String)
    (self : MultiCategoryEncoding) (data : List (List (List String))) :
    (self.adaptS slA data).encoding = self.encoding := rfl

lemma adaptS_layers_length (slA : List (List (List String)) → List String)
    (self : MultiCategoryEncoding) (data : List (List (List String))) :
    (self.adaptS slA data).encoding_layers.length = self.encoding_layers.length := by
  simp [MultiCategoryEncoding.adaptS]

lemma adaptS_layerPattern (slA : List (List (List String)) → List String)
    (self : MultiCategoryEncoding) (data : List (List (List String))) :
    layerPattern (self.adaptS slA data) = layerPattern self := by
  apply List.ext_getElem?
  intro i
  simp only [layerPattern, List.getElem?_map, adaptS_getElem?]
  cases self.encoding_layers[i]? with
  | none => rfl
  | some l => cases l <;> rfl

lemma encodeColumn_none_getD (parse : String → F32) (slk : List String → String → Int)
    (col : List String) (r : Nat) (hr : r < col.length) :
    (encodeColumn parse slk none col).getD r (F32.val 0)
      = imputeNan (parse (col.getD r "")) := by
  simp [encodeColumn, List.getD_eq_getElem?_getD, List.getElem?_map,
    List.getElem?_eq_getElem hr]

lemma encodeColumn_lookup_getD (parse : String → F32) (slk : List String → String → Int)
    (vocab : List String) (col : List String) (r : Nat) (hr : r < col.length) :
    (encodeColumn parse slk (some (EncLayer.stringLookup vocab)) col).getD r (F32.val 0)
      = F32.val (slk vocab (col.getD r "")) := by
  simp [encodeColumn, List.getD_eq_getElem?_getD, List.getElem?_map,
    List.getElem?_eq_getElem hr]

lemma colslice_getD (rows : List (List String)) (j r : Nat) (hr : r < rows.length) :
    ((rows.map fun row => row.getD j "").getD r "") = (rows.getD r []).getD j "" := by
  rw [List.getD_eq_getElem?_getD, List.getElem?_map, List.getElem?_eq_getElem hr,
    List.getD_eq_getElem?_getD rows r [], List.getElem?_eq_getElem hr]
  rfl

lemma init_layers_getElem? (enc : List String)
    (hval : ∀ e ∈ enc, e = NONE ∨ e = INT ∨ e = ONE_HOT) (i : Nat) (e : String)
    (hi : enc[i]? = some e) :
    (MultiCategoryEncoding.init enc).encoding_layers[i]? = some (layerFor e) := by
  show (initEncodingLayers enc)[i]? = some (layerFor e)
  rw [initEncodingLayers_eq_map enc hval, List.getElem?_map, hi]
  rfl

lemma adapted_init_layer (slA : List (List (List String)) → List String)
    (enc : List String) (data : List (List (List String))) (i : Nat) (e : String)
    (hval : ∀ e ∈ enc, e = NONE ∨ e = INT ∨ e = ONE_HOT)
    (hi : enc[i]? = some e) :
    ((MultiCategoryEncoding.init enc).adaptS slA data).encoding_layers[i]?
      = some (if e = INT
              then some (EncLayer.stringLookup (slA (data.map (sliceCol i))))
              else none) := by
  rw [adaptS_getElem?, init_layers_getElem? enc hval i e hi]
  by_cases he : e = INT <;> simp [layerFor, he]

lemma adapted_init_encoding_length (slA : List (List (List String)) → List String)
    (enc : List String) (data : List (List (List String))) (i : Nat)
    (hi : i < enc.length) :
    i < (((MultiCategoryEncoding.init enc).adaptS slA data).encoding).length := by
  rw [adaptS_encoding]
  exact hi

/-! ### Claims -/

/-- C1: for every column position `i` whose encoding is "none",
`MultiCategoryEncoding.call` converts the string values of column `i` to
float32 numbers (`tf.strings.to_number`, embedded by `parse`), replaces
every NaN by 0, and leaves every non-NaN numeric value unchanged. -/
theorem MCE_call_none_column_numeric_passthrough
    (parse : String → F32) (slk : List String → String → Int)
    (slA : List (List (List String)) → List String)
    (enc : List String) (data : List (List (List String))) (rows : List (List String))
    (hval : ∀ e ∈ enc, e = NONE ∨ e = INT ∨ e = ONE_HOT)
    (hw : ∀ row ∈ rows, row.length = enc.length)
    (i r : Nat) (hi : enc[i]? = some NONE) (hr : r < rows.length) :
    ((MultiCategoryEncoding.call parse slk
        ((MultiCategoryEncoding.init enc).adaptS slA data) rows).getD r []).getD i (F32.val 0)
      = imputeNan (parse ((rows.getD r []).getD i ""))
    ∧ imputeNan F32.nan = F32.val 0
    ∧ (∀ q : Rat, imputeNan (F32.val q) = F32.val q) := by
  have hilen : i < enc.length := (List.getElem?_eq_some_iff.mp hi).1
  have hL : ((MultiCategoryEncoding.init enc).adaptS slA data).encoding_layers[i]?
      = some none := by
    rw [adapted_init_layer slA enc data i NONE hval hi]
    simp [NONE, INT]
  refine ⟨?_, rfl, fun q => rfl⟩
  rw [call_entry parse slk _ rows r i none hr
      (adapted_init_encoding_length slA enc data i hilen) hL,
    encodeColumn_none_getD _ _ _ _ (by simpa using hr), colslice_getD rows i r hr]

/-- C1 witness at a concrete instance: one "none" column, a batch with
a NaN entry and a numeric entry. -/
theorem MCE_call_none_column_numeric_passthrough_witness :
    ((MultiCategoryEncoding.call
        (fun s => if s = "nan" then F32.nan else F32.val 1) (fun _ _ => 0)
        ((MultiCategoryEncoding.init ["none"]).adaptS (fun _ => []) []) [["nan"], ["1"]]).getD
          0 []).getD 0 (F32.val 0)
      = imputeNan ((fun s => if s = "nan" then F32.nan else F32.val 1)
          (([["nan"], ["1"]].getD 0 []).getD 0 ""))
    ∧ imputeNan F32.nan = F32.val 0
    ∧ (∀ q : Rat, imputeNan (F32.val q) = F32.val q) :=
  MCE_call_none_column_numeric_passthrough
    (fun s => if s = "nan" then F32.nan else F32.val 1) (fun _ _ => 0) (fun _ => [])
    ["none"] [] [["nan"], ["1"]]
    (by decide) (by decide) 0 0 (by decide) (by decide)

/-- C2: for every column position `i` whose encoding is "int", `__init__`
installs a `StringLookup` layer at position `i`, and `call` maps that
column's string values to integer indices through that layer — whose
vocabulary is the one observed during `adapt` on that column — and casts
the result to float32. -/
theorem MCE_int_column_string_lookup
    (parse : String → F32) (slk : List String → String → Int)
    (slA : List (List (List String)) → List String)
    (enc : List String) (data : List (List (List String))) (rows : List (List String))
    (hval : ∀ e ∈ enc, e = NONE ∨ e = INT ∨ e = ONE_HOT)
    (hw : ∀ row ∈ rows, row.length = enc.length)
    (i r : Nat) (hi : enc[i]? = some INT) (hr : r < rows.length) :
    (MultiCategoryEncoding.init enc).encoding_layers[i]?
        = some (some (EncLayer.stringLookup []))
    ∧ ((MultiCategoryEncoding.call parse slk
        ((MultiCategoryEncoding.init enc).adaptS slA data) rows).getD r []).getD i (F32.val 0)
      = F32.val (slk (slA (data.map (sliceCol i))) ((rows.getD r []).getD i "")) := by
  have hilen : i < enc.length := (List.getElem?_eq_some_iff.mp hi).1
  have hL : ((MultiCategoryEncoding.init enc).adaptS slA data).encoding_layers[i]?
      = some (some (EncLayer.stringLookup (slA (data.map (sliceCol i))))) := by
    rw [adapted_init_layer slA enc data i INT hval hi]
    simp
  constructor
  · rw [init_layers_getElem? enc hval i INT hi, layerFor_INT]
  · rw [call_entry parse slk _ rows r i _ hr
        (adapted_init_encoding_length slA enc data i hilen) hL,
      encodeColumn_lookup_getD _ _ _ _ _ (by simpa using hr), colslice_getD rows i r hr]

/-- C2 witness at a concrete instance: one "int" column adapted to a
one-word vocabulary, looked up by index. -/
theorem MCE_int_column_string_lookup_witness :
    (MultiCategoryEncoding.init ["int"]).encoding_layers[0]?
        = some (some (EncLayer.stringLookup []))
    ∧ ((MultiCategoryEncoding.call (fun _ => F32.val 0)
        (fun v s => if v.contains s then 1 else 0)
        ((MultiCategoryEncoding.init ["int"]).adaptS
          (fun batches => (batches.headD []).map fun row => row.getD 0 "") [[["a"], ["b"]]])
        [["a"], ["c"]]).getD 1 []).getD 0 (F32.val 0)
      = F32.val ((fun v s => if v.contains s then 1 else 0)
          ((fun batches => (batches.headD []).map fun row => row.getD 0 "")
            ([[["a"], ["b"]]].map (sliceCol 0)))
          (([["a"], ["c"]].getD 1 []).getD 0 "")) :=
  MCE_int_column_string_lookup (fun _ => F32.val 0)
    (fun v s => if v.contains s then 1 else 0)
    (fun batches => (batches.headD []).map fun row => row.getD 0 "")
    ["int"] [[["a"], ["b"]]] [["a"], ["c"]]
    (by decide) (by decide) 0 1 (by decide) (by decide)

/-- C6: for every column position `i` whose encoding is "one-hot",
`__init__` installs no encoding layer (`None`), so `call` treats the
column exactly like a "none" column: string-to-number conversion with NaN
imputed to 0, and no one-hot encoding is produced. -/
theorem MCE_one_hot_column_treated_as_none
    (parse : String → F32) (slk : List String → String → Int)
    (slA : List (List (List String)) → List String)
    (enc : List String) (data : List (List (List String))) (rows : List (List String))
    (hval : ∀ e ∈ enc, e = NONE ∨ e = INT ∨ e = ONE_HOT)
    (hw : ∀ row ∈ rows, row.length = enc.length)
    (i r : Nat) (hi : enc[i]? = some ONE_HOT) (hr : r < rows.length) :
    (MultiCategoryEncoding.init enc).encoding_layers[i]? = some none
    ∧ ((MultiCategoryEncoding.call parse slk
        ((MultiCategoryEncoding.init enc).adaptS slA data) rows).getD r []).getD i (F32.val 0)
      = imputeNan (parse ((rows.getD r []).getD i "")) := by
  have hilen : i < enc.length := (List.getElem?_eq_some_iff.mp hi).1
  have hL : ((MultiCategoryEncoding.init enc).adaptS slA data).encoding_layers[i]?
      = some none := by
    rw [adapted_init_layer slA enc data i ONE_HOT hval hi]
    simp [ONE_HOT, INT]
  constructor
  · rw [init_layers_getElem? enc hval i ONE_HOT hi, layerFor_ONE_HOT]
  · rw [call_entry parse slk _ rows r i none hr
        (adapted_init_encoding_length slA enc data i hilen) hL,
      encodeColumn_none_getD _ _ _ _ (by simpa using hr), colslice_getD rows i r hr]

/-- C6 witness at a concrete instance: a "one-hot" column goes through
the numeric branch, not a one-hot encoding. -/
theorem MCE_one_hot_column_treated_as_none_witness :
    (MultiCategoryEncoding.init ["one-hot"]).encoding_layers[0]? = some none
    ∧ ((MultiCategoryEncoding.call
        (fun s => if s = "x" then F32.nan else F32.val 2) (fun _ _ => 5)
        ((MultiCategoryEncoding.init ["one-hot"]).adaptS (fun _ => ["v"]) []) [["x"]]).getD
          0 []).getD 0 (F32.val 0)
      = imputeNan ((fun s => if s = "x" then F32.nan else F32.val 2)
          (([["x"]].getD 0 []).getD 0 "")) :=
  MCE_one_hot_column_treated_as_none
    (fun s => if s = "x" then F32.nan else F32.val 2) (fun _ _ => 5) (fun _ => ["v"])
    ["one-hot"] [] [["x"]]
    (by decide) (by decide) 0 0 (by decide) (by decide)

lemma dictGet_append_last (items : List (String × ConfigVal)) (k : String) (v : ConfigVal) :
    dictGet (items ++ [(k, v)]) k = some v := by
  simp [dictGet, List.reverse_append]

lemma call_eq_concat (parse : String → F32) (slk : List String → String → Int)
    (self : MultiCategoryEncoding) (rows : List (List String)) :
    MultiCategoryEncoding.call parse slk self rows
      = concatCols rows.length (callCols parse slk self rows) := by
  rw [call_eq_branches]
  by_cases h1 : (callCols parse slk self rows).length = 1
  · obtain ⟨c, hc⟩ := List.length_eq_one.mp h1
    have hcl : c.length = rows.length :=
      callCols_mem_length parse slk self rows c (by rw [hc]; exact List.mem_singleton_self c)
    rw [if_pos h1, hc]
    simp only [List.headD_cons]
    apply List.ext_getElem?
    intro n
    rw [List.getElem?_map]
    simp only [concatCols, List.getElem?_map]
    by_cases hn : n < rows.length
    · rw [List.getElem?_range hn, List.getElem?_eq_getElem (hcl ▸ hn)]
      simp [List.getD_eq_getElem?_getD, List.getElem?_eq_getElem (hcl ▸ hn)]
    · rw [List.getElem?_eq_none (by omega : c.length ≤ n),
        List.getElem?_eq_none (by simpa using (by omega : rows.length ≤ n))]
      rfl
  · rw [if_neg h1]

/-- C3: `MultiCategoryEncoding.adapt` leaves `encoding` unchanged, fits
the `StringLookup` of each layer position on the width-1 slice of the
dataset at exactly that position, and performs no adaptation for
positions whose encoding layer is `None` (they stay `None`, untouched). -/
theorem MCE_adapt_per_column_slice
    (slA : List (List (List String)) → List String)
    (self : MultiCategoryEncoding) (data : List (List (List String))) (i : Nat) :
    (self.adaptS slA data).encoding = self.encoding
    ∧ (∀ x, sliceCol i x = x.map fun row => [row.getD i ""])
    ∧ (self.adaptS slA data).encoding_layers[i]?
        = (self.encoding_layers[i]?).map fun l =>
            match l with
            | none => none
            | some _ => some (EncLayer.stringLookup (slA (data.map (sliceCol i)))) :=
  ⟨rfl, fun _ => rfl, adaptS_getElem? slA self data i⟩

/-- C5: evaluating the module's top level raises `NameError` at the
definition of `CUSTOM_OBJECTS` — the first unbound name referenced is
`MultiColumnCategoricalEncoding` — so the import fails after
`MultiCategoryEncoding` is created but before
`TextVectorizationWithTokenizer` is defined; neither
`MultiColumnCategoricalEncoding` nor `index_lookup` is ever bound. -/
theorem module_import_raises_NameError :
    evalModule moduleStmts []
      = Except.error ("MultiColumnCategoricalEncoding",
          ["np", "tf", "preprocessing", "nest", "INT", "NONE", "ONE_HOT",
           "MultiCategoryEncoding"])
    ∧ "TextVectorizationWithTokenizer" ∉
        ["np", "tf", "preprocessing", "nest", "INT", "NONE", "ONE_HOT",
         "MultiCategoryEncoding"]
    ∧ "MultiColumnCategoricalEncoding" ∉
        ["np", "tf", "preprocessing", "nest", "INT", "NONE", "ONE_HOT",
         "MultiCategoryEncoding"]
    ∧ "index_lookup" ∉
        ["np", "tf", "preprocessing", "nest", "INT", "NONE", "ONE_HOT",
         "MultiCategoryEncoding"] := by
  refine ⟨rfl, by decide, by decide, by decide⟩

/-- C8: `get_config` maps the key "encoding" to the layer's encoding
list (the entry appended last wins the dict lookup), and rebuilding a
`MultiCategoryEncoding` from that config reproduces the same encoding
list and the same per-column pattern of `StringLookup`/`None` layers,
even for an adapted layer. -/
theorem MCE_get_config_round_trip
    (base : List (String × ConfigVal)) (enc : List String)
    (slA : List (List (List String)) → List String) (data : List (List (List String))) :
    dictGet (MultiCategoryEncoding.get_config base
        ((MultiCategoryEncoding.init enc).adaptS slA data)) "encoding"
      = some (ConfigVal.strList enc)
    ∧ MultiCategoryEncoding.fromConfig
        (MultiCategoryEncoding.get_config base
          ((MultiCategoryEncoding.init enc).adaptS slA data))
      = some (MultiCategoryEncoding.init enc)
    ∧ (MultiCategoryEncoding.init enc).encoding
        = ((MultiCategoryEncoding.init enc).adaptS slA data).encoding
    ∧ layerPattern (MultiCategoryEncoding.init enc)
        = layerPattern ((MultiCategoryEncoding.init enc).adaptS slA data) := by
  have hget : dictGet (MultiCategoryEncoding.get_config base
      ((MultiCategoryEncoding.init enc).adaptS slA data)) "encoding"
      = some (ConfigVal.strList enc) :=
    dictGet_append_last base "encoding" (ConfigVal.strList enc)
  refine ⟨hget, ?_, rfl, (adaptS_layerPattern slA _ data).symm⟩
  rw [MultiCategoryEncoding.fromConfig, hget]

/-- C10: `MultiCategoryEncoding.call` does not modify the layer's own
state — the `encoding` list, the `encoding_layers` list and the adapted
vocabularies are identical after `call` returns — and
`TextVectorizationWithTokenizer.call` likewise returns its own state
unchanged; each layer's output is a function of its own state and input
only, so the two classes share no runtime state. -/
theorem MCE_call_frame (parse : String → F32) (slk : List String → String → Int)
    (self : MultiCategoryEncoding) (rows : List (List String))
    (tv : TextVectorizationWithTokenizer) (inputs : List String) :
    (self.callS parse slk rows).1 = self
    ∧ (self.callS parse slk rows).1.encoding = self.encoding
    ∧ (self.callS parse slk rows).1.encoding_layers = self.encoding_layers
    ∧ (tv.callS inputs).1 = tv :=
  ⟨rfl, rfl, rfl, rfl⟩

/-- C4: `call` splits the input along the last axis into exactly
`len(encoding)` width-1 columns, encodes each column independently by its
own encoding layer, and returns the concatenation of the encoded columns
along the last axis — except that when `len(encoding)` is 1 the single
encoded column is returned directly, without concatenation. -/
theorem MCE_call_split_encode_concat
    (parse : String → F32) (slk : List String → String → Int)
    (slA : List (List (List String)) → List String)
    (enc : List String) (data : List (List (List String))) (rows : List (List String))
    (hval : ∀ e ∈ enc, e = NONE ∨ e = INT ∨ e = ONE_HOT)
    (hw : ∀ row ∈ rows, row.length = enc.length) :
    (splitCols enc.length rows).length = enc.length
    ∧ (∀ j, j < enc.length →
        (splitCols enc.length rows)[j]? = some (rows.map fun row => row.getD j ""))
    ∧ (callCols parse slk ((MultiCategoryEncoding.init enc).adaptS slA data) rows).length
        = enc.length
    ∧ (∀ j L, j < enc.length →
        ((MultiCategoryEncoding.init enc).adaptS slA data).encoding_layers[j]? = some L →
        (callCols parse slk ((MultiCategoryEncoding.init enc).adaptS slA data) rows)[j]?
          = some (encodeColumn parse slk L (rows.map fun row => row.getD j "")))
    ∧ MultiCategoryEncoding.call parse slk
        ((MultiCategoryEncoding.init enc).adaptS slA data) rows
        = concatCols rows.length
            (callCols parse slk ((MultiCategoryEncoding.init enc).adaptS slA data) rows)
    ∧ (enc.length = 1 →
        MultiCategoryEncoding.call parse slk
          ((MultiCategoryEncoding.init enc).adaptS slA data) rows
          = ((callCols parse slk
                ((MultiCategoryEncoding.init enc).adaptS slA data) rows).headD []).map
              fun x => [x]) := by
  have hlay : (((MultiCategoryEncoding.init enc).adaptS slA data)).encoding_layers.length
      = enc.length := by
    rw [adaptS_layers_length]
    show (initEncodingLayers enc).length = enc.length
    rw [initEncodingLayers_eq_map enc hval, List.length_map]
  have hcc : (callCols parse slk ((MultiCategoryEncoding.init enc).adaptS slA data) rows).length
      = enc.length := by
    rw [callCols_length, adaptS_encoding]
    show min enc.length _ = enc.length
    rw [hlay, Nat.min_self]
  refine ⟨splitCols_length enc.length rows,
    fun j hj => splitCols_getElem? enc.length rows j hj, hcc,
    fun j L hj hL => callCols_getElem? parse slk _ rows j L
      (adapted_init_encoding_length slA enc data j hj) hL,
    call_eq_concat parse slk _ rows, fun h1 => ?_⟩
  rw [call_eq_branches, if_pos (by rw [hcc, h1])]

/-- C4 witness at concrete instances: a two-column layer goes through the
concatenation path, a one-column layer returns the single encoded column
directly. -/
theorem MCE_call_split_encode_concat_witness :
    (splitCols 2 [["1", "a"]]).length = 2
    ∧ (splitCols 2 [["1", "a"]])[1]? = some ([["1", "a"]].map fun row => row.getD 1 "")
    ∧ (callCols (fun _ => F32.val 3) (fun _ _ => 4)
        ((MultiCategoryEncoding.init ["none", "int"]).adaptS (fun _ => []) []) [["1", "a"]]).length
        = 2
    ∧ (callCols (fun _ => F32.val 3) (fun _ _ => 4)
        ((MultiCategoryEncoding.init ["none", "int"]).adaptS (fun _ => []) []) [["1", "a"]])[1]?
        = some (encodeColumn (fun _ => F32.val 3) (fun _ _ => 4)
            (some (EncLayer.stringLookup [])) ([["1", "a"]].map fun row => row.getD 1 ""))
    ∧ MultiCategoryEncoding.call (fun _ => F32.val 3) (fun _ _ => 4)
        ((MultiCategoryEncoding.init ["none", "int"]).adaptS (fun _ => []) []) [["1", "a"]]
        = concatCols 1 (callCols (fun _ => F32.val 3) (fun _ _ => 4)
            ((MultiCategoryEncoding.init ["none", "int"]).adaptS (fun _ => []) []) [["1", "a"]])
    ∧ MultiCategoryEncoding.call (fun _ => F32.val 3) (fun _ _ => 4)
        ((MultiCategoryEncoding.init ["none"]).adaptS (fun _ => []) []) [["1"]]
        = ((callCols (fun _ => F32.val 3) (fun _ _ => 4)
              ((MultiCategoryEncoding.init ["none"]).adaptS (fun _ => []) []) [["1"]]).headD []).map
            fun x => [x] := by
  have h2 := MCE_call_split_encode_concat (fun _ => F32.val 3) (fun _ _ => 4) (fun _ => [])
    ["none", "int"] [] [["1", "a"]] (by decide) (by decide)
  have h1 := MCE_call_split_encode_concat (fun _ => F32.val 3) (fun _ _ => 4) (fun _ => [])
    ["none"] [] [["1"]] (by decide) (by decide)
  exact ⟨h2.1, h2.2.1 1 (by decide), h2.2.2.1,
    h2.2.2.2.1 1 (some (EncLayer.stringLookup [])) (by decide) (by decide),
    h2.2.2.2.2.1, h1.2.2.2.2.2 (by decide)⟩

/-- C7: when every entry of `encoding` lies in {"none", "int", "one-hot"},
`encoding_layers` has the same length as `encoding` and `adapt` preserves
this; when some entry lies outside that set, `__init__` appends nothing
for it, the lists misalign (`encoding_layers` is strictly shorter), and
`call` silently pairs layer `j` with column `j` — the column the dropped
entry shifts it onto — and produces rows with only
`len(encoding_layers)` entries, dropping trailing columns instead of
raising an error. -/
theorem MCE_encoding_layers_alignment
    (parse : String → F32) (slk : List String → String → Int)
    (enc : List String) (rows : List (List String)) :
    ((∀ e ∈ enc, e = NONE ∨ e = INT ∨ e = ONE_HOT) →
      (MultiCategoryEncoding.init enc).encoding_layers.length = enc.length
      ∧ ∀ slA data,
          (((MultiCategoryEncoding.init enc).adaptS slA data)).encoding_layers.length
            = enc.length)
    ∧ (∀ e ∈ enc, ¬(e = NONE ∨ e = INT ∨ e = ONE_HOT) →
      (MultiCategoryEncoding.init enc).encoding_layers.length < enc.length
      ∧ (∀ r, r < rows.length →
          ((MultiCategoryEncoding.call parse slk
              (MultiCategoryEncoding.init enc) rows).getD r []).length
            = (MultiCategoryEncoding.init enc).encoding_layers.length)
      ∧ (∀ j L, (MultiCategoryEncoding.init enc).encoding_layers[j]? = some L →
          (callCols parse slk (MultiCategoryEncoding.init enc) rows)[j]?
            = some (encodeColumn parse slk L (rows.map fun row => row.getD j "")))) := by
  have hle : (initEncodingLayers enc).length ≤ enc.length := initEncodingLayers_length_le enc
  constructor
  · intro hval
    have h : (MultiCategoryEncoding.init enc).encoding_layers.length = enc.length := by
      show (initEncodingLayers enc).length = enc.length
      rw [initEncodingLayers_eq_map enc hval, List.length_map]
    exact ⟨h, fun slA data => by rw [adaptS_layers_length]; exact h⟩
  · intro e he hbad
    refine ⟨initEncodingLayers_length_lt enc e he hbad, fun r hr => ?_, fun j L hL => ?_⟩
    · rw [List.getD_eq_getElem?_getD
          (MultiCategoryEncoding.call parse slk (MultiCategoryEncoding.init enc) rows) r [],
        call_getElem?_row parse slk _ rows r hr]
      simp only [Option.getD_some, List.length_map]
      rw [callCols_length]
      show min enc.length (initEncodingLayers enc).length = (initEncodingLayers enc).length
      omega
    · have hjlay : j < (initEncodingLayers enc).length :=
        (List.getElem?_eq_some_iff.mp hL).1
      exact callCols_getElem? parse slk _ rows j L (by show j < enc.length; omega) hL

/-- C7 witness at concrete instances: a valid encoding list keeps the two
lists aligned; an unsupported entry ("frequency") makes `encoding_layers`
strictly shorter, `call` emits width-1 rows for a 2-column input, and the
"int" layer built for column 1 is applied to column 0. -/
theorem MCE_encoding_layers_alignment_witness :
    (MultiCategoryEncoding.init ["none", "int"]).encoding_layers.length = 2
    ∧ (MultiCategoryEncoding.init ["frequency", "int"]).encoding_layers.length < 2
    ∧ ((MultiCategoryEncoding.call (fun _ => F32.val 3) (fun _ _ => 4)
        (MultiCategoryEncoding.init ["frequency", "int"]) [["a", "b"]]).getD 0 []).length
        = (MultiCategoryEncoding.init ["frequency", "int"]).encoding_layers.length
    ∧ (callCols (fun _ => F32.val 3) (fun _ _ => 4)
        (MultiCategoryEncoding.init ["frequency", "int"]) [["a", "b"]])[0]?
        = some (encodeColumn (fun _ => F32.val 3) (fun _ _ => 4)
            (some (EncLayer.stringLookup [])) ([["a", "b"]].map fun row => row.getD 0 "")) := by
  have hv := MCE_encoding_layers_alignment (fun _ => F32.val 3) (fun _ _ => 4)
    ["none", "int"] [["a", "b"]]
  have hb := MCE_encoding_layers_alignment (fun _ => F32.val 3) (fun _ _ => 4)
    ["frequency", "int"] [["a", "b"]]
  have hbad := hb.2 "frequency" (by decide) (by decide)
  exact ⟨(hv.1 (by decide)).1, hbad.1, hbad.2.1 0 (by decide),
    hbad.2.2 0 (some (EncLayer.stringLookup [])) (by decide)⟩

/-! ### Helper lemmas for the text layer -/

lemma bert_word_ids (self : TextVectorizationWithTokenizer) (input : List String) :
    fieldGet (self.bert_encode input) "input_word_ids"
      = toTensor (rowConcat
          (List.replicate input.length (convertTokensToIds self.tokenizer ["[CLS]"]))
          (input.map fun s => self.encode_sentence s)) := by
  simp [fieldGet, TextVectorizationWithTokenizer.bert_encode]

lemma bert_mask (self : TextVectorizationWithTokenizer) (input : List String) :
    fieldGet (self.bert_encode input) "input_mask"
      = toTensor (onesLike (rowConcat
          (List.replicate input.length (convertTokensToIds self.tokenizer ["[CLS]"]))
          (input.map fun s => self.encode_sentence s))) := by
  simp [fieldGet, TextVectorizationWithTokenizer.bert_encode]

lemma bert_type_ids (self : TextVectorizationWithTokenizer) (input : List String) :
    fieldGet (self.bert_encode input) "input_type_ids"
      = toTensor (rowConcat
          (zerosLike (List.replicate input.length (convertTokensToIds self.tokenizer ["[CLS]"])))
          (zerosLike (input.map fun s => self.encode_sentence s))) := by
  simp [fieldGet, TextVectorizationWithTokenizer.bert_encode]

lemma rowConcat_cls_getElem? (self : TextVectorizationWithTokenizer)
    (input : List String) (r : Nat) (hr : r < input.length) :
    (rowConcat (List.replicate input.length (convertTokensToIds self.tokenizer ["[CLS]"]))
        (input.map fun s => self.encode_sentence s))[r]?
      = some (self.tokenizer.tokenToId "[CLS]"
          :: self.encode_sentence (input.getD r "")) := by
  have h1 : (List.replicate input.length (convertTokensToIds self.tokenizer ["[CLS]"]))[r]?
      = some [self.tokenizer.tokenToId "[CLS]"] := by
    simp [List.getElem?_replicate, hr, convertTokensToIds]
  have h2 : (input.map fun s => self.encode_sentence s)[r]?
      = some (self.encode_sentence (input.getD r "")) := by
    rw [List.getElem?_map, List.getElem?_eq_getElem hr,
      List.getD_eq_getElem?_getD input r "", List.getElem?_eq_getElem hr]
    rfl
  simp [rowConcat, List.getElem?_zipWith, h1, h2]

lemma toTensor_getElem? (rows : List (List Int)) (r : Nat) (row : List Int)
    (h : rows[r]? = some row) :
    (toTensor rows)[r]? = some (row ++ List.replicate (maxRowLen rows - row.length) 0) := by
  simp [toTensor, List.getElem?_map, h]

lemma toTensor_take_row (rows : List (List Int)) (r : Nat) (row : List Int) (n : Nat)
    (h : rows[r]? = some row) (hlen : row.length = n) :
    ((toTensor rows).getD r []).take n = row := by
  rw [List.getD_eq_getElem?_getD, toTensor_getElem? rows r row h, Option.getD_some]
  exact List.take_left' hlen

lemma onesLike_getElem? (rows : List (List Int)) (r : Nat) :
    (onesLike rows)[r]? = rows[r]?.map (List.map fun _ => (1 : Int)) := by
  simp only [onesLike, List.getElem?_map]

lemma mem_zipWith_append {a b : List (List Int)} {row : List Int}
    (h : row ∈ List.zipWith (· ++ ·) a b) :
    ∃ ra ∈ a, ∃ rb ∈ b, row = ra ++ rb := by
  induction a generalizing b with
  | nil => simp at h
  | cons x xs ih =>
    cases b with
    | nil => simp at h
    | cons y ys =>
      simp only [List.zipWith_cons_cons, List.mem_cons] at h
      rcases h with rfl | h
      · exact ⟨x, List.mem_cons_self _ _, y, List.mem_cons_self _ _, rfl⟩
      · obtain ⟨ra, hra, rb, hrb, rfl⟩ := ih h
        exact ⟨ra, List.mem_cons_of_mem _ hra, rb, List.mem_cons_of_mem _ hrb, rfl⟩

lemma zerosLike_all_zero (rows : List (List Int)) (row : List Int)
    (hrow : row ∈ zerosLike rows) (x : Int) (hx : x ∈ row) : x = 0 := by
  simp only [zerosLike, List.mem_map] at hrow
  obtain ⟨r0, _, rfl⟩ := hrow
  simp only [List.mem_map] at hx
  obtain ⟨_, _, rfl⟩ := hx
  rfl

/-- C9: `TextVectorizationWithTokenizer.call` returns the dict with
exactly the keys `input_word_ids`, `input_mask`, `input_type_ids`; each
row of `input_word_ids` begins with the tokenizer's id for `[CLS]`
followed by the ids of the sentence's tokens with the id for `[SEP]`
appended; `input_mask` is all ones over the token positions; and
`input_type_ids` is all zeros. -/
theorem TVT_call_bert_encoding (tk : Tokenizer) (input : List String) (r : Nat)
    (hr : r < input.length) :
    ((TextVectorizationWithTokenizer.mk tk).call input).map Prod.fst
        = ["input_word_ids", "input_mask", "input_type_ids"]
    ∧ TextVectorizationWithTokenizer.encode_sentence ⟨tk⟩ (input.getD r "")
        = (tk.tokenize (input.getD r "")).map tk.tokenToId ++ [tk.tokenToId "[SEP]"]
    ∧ ((fieldGet ((TextVectorizationWithTokenizer.mk tk).call input)
          "input_word_ids").getD r []).take
          (1 + (TextVectorizationWithTokenizer.encode_sentence ⟨tk⟩ (input.getD r "")).length)
        = tk.tokenToId "[CLS]"
            :: TextVectorizationWithTokenizer.encode_sentence ⟨tk⟩ (input.getD r "")
    ∧ ((fieldGet ((TextVectorizationWithTokenizer.mk tk).call input)
          "input_mask").getD r []).take
          (1 + (TextVectorizationWithTokenizer.encode_sentence ⟨tk⟩ (input.getD r "")).length)
        = List.replicate
            (1 + (TextVectorizationWithTokenizer.encode_sentence ⟨tk⟩ (input.getD r "")).length)
            1
    ∧ ∀ row ∈ fieldGet ((TextVectorizationWithTokenizer.mk tk).call input) "input_type_ids",
        ∀ x ∈ row, x = 0 := by
  have hcall : (TextVectorizationWithTokenizer.mk tk).call input
      = (TextVectorizationWithTokenizer.mk tk).bert_encode input := rfl
  have hrag := rowConcat_cls_getElem? (TextVectorizationWithTokenizer.mk tk) input r hr
  refine ⟨rfl, by simp [TextVectorizationWithTokenizer.encode_sentence, convertTokensToIds],
    ?_, ?_, ?_⟩
  · rw [hcall, bert_word_ids]
    exact toTensor_take_row _ r _ _ hrag (by simp [Nat.add_comm])
  · rw [hcall, bert_mask]
    have hmaskrow : (onesLike (rowConcat
        (List.replicate input.length
          (convertTokensToIds (TextVectorizationWithTokenizer.mk tk).tokenizer ["[CLS]"]))
        (input.map fun s => (TextVectorizationWithTokenizer.mk tk).encode_sentence s)))[r]?
        = some ((tk.tokenToId "[CLS]"
            :: TextVectorizationWithTokenizer.encode_sentence ⟨tk⟩ (input.getD r "")).map
              fun _ => (1 : Int)) := by
      rw [onesLike_getElem?, hrag]
      rfl
    rw [toTensor_take_row _ r _ _ hmaskrow (by simp [Nat.add_comm])]
    rw [List.map_cons, List.map_const', Nat.add_comm, List.replicate_succ]
  · rw [hcall, bert_type_ids]
    intro row hrow x hx
    simp only [toTensor, List.mem_map] at hrow
    obtain ⟨row0, hrow0, rfl⟩ := hrow
    rcases List.mem_append.mp hx with hx0 | hxp
    · obtain ⟨ra, hra, rb, hrb, rfl⟩ := mem_zipWith_append hrow0
      rcases List.mem_append.mp hx0 with hxa | hxb
      · exact zerosLike_all_zero _ ra hra x hxa
      · exact zerosLike_all_zero _ rb hrb x hxb
    · exact List.eq_of_mem_replicate hxp

/-- C9 witness at a concrete instance: a two-sentence batch with a
one-token-per-word tokenizer. -/
theorem TVT_call_bert_encoding_witness :
    ((TextVectorizationWithTokenizer.mk
        ⟨fun s => [s], fun t => if t = "[CLS]" then 101 else if t = "[SEP]" then 102 else 7⟩).call
        ["hello", "hi"]).map Prod.fst
        = ["input_word_ids", "input_mask", "input_type_ids"]
    ∧ TextVectorizationWithTokenizer.encode_sentence
        ⟨⟨fun s => [s], fun t => if t = "[CLS]" then 101 else if t = "[SEP]" then 102 else 7⟩⟩
        (["hello", "hi"].getD 0 "")
        = (["hello", "hi"].getD 0 "" :: []).map
            (fun t => if t = "[CLS]" then (101 : Int) else if t = "[SEP]" then 102 else 7)
          ++ [if ("[SEP]" : String) = "[CLS]" then (101 : Int)
              else if ("[SEP]" : String) = "[SEP]" then 102 else 7]
    ∧ ((fieldGet ((TextVectorizationWithTokenizer.mk
          ⟨fun s => [s], fun t => if t = "[CLS]" then 101 else if t = "[SEP]" then 102 else 7⟩).call
          ["hello", "hi"]) "input_word_ids").getD 0 []).take
          (1 + (TextVectorizationWithTokenizer.encode_sentence
            ⟨⟨fun s => [s], fun t => if t = "[CLS]" then 101 else if t = "[SEP]" then 102 else 7⟩⟩
            (["hello", "hi"].getD 0 "")).length)
        = (if ("[CLS]" : String) = "[CLS]" then (101 : Int)
            else if ("[CLS]" : String) = "[SEP]" then 102 else 7)
            :: TextVectorizationWithTokenizer.encode_sentence
              ⟨⟨fun s => [s], fun t => if t = "[CLS]" then 101 else if t = "[SEP]" then 102 else 7⟩⟩
              (["hello", "hi"].getD 0 "")
    ∧ ((fieldGet ((TextVectorizationWithTokenizer.mk
          ⟨fun s => [s], fun t => if t = "[CLS]" then 101 else if t = "[SEP]" then 102 else 7⟩).call
          ["hello", "hi"]) "input_mask").getD 0 []).take
          (1 + (TextVectorizationWithTokenizer.encode_sentence
            ⟨⟨fun s => [s], fun t => if t = "[CLS]" then 101 else if t = "[SEP]" then 102 else 7⟩⟩
            (["hello", "hi"].getD 0 "")).length)
        = List.replicate
            (1 + (TextVectorizationWithTokenizer.encode_sentence
              ⟨⟨fun s => [s], fun t => if t = "[CLS]" then 101 else if t = "[SEP]" then 102 else 7⟩⟩
              (["hello", "hi"].getD 0 "")).length) 1
    ∧ ∀ row ∈ fieldGet ((TextVectorizationWithTokenizer.mk
          ⟨fun s => [s], fun t => if t = "[CLS]" then 101 else if t = "[SEP]" then 102 else 7⟩).call
          ["hello", "hi"]) "input_type_ids", ∀ x ∈ row, x = 0 :=
  TVT_call_bert_encoding
    ⟨fun s => [s], fun t => if t = "[CLS]" then 101 else if t = "[SEP]" then 102 else 7⟩
    ["hello", "hi"] 0 (by decide)

end KerasLayers
